import Mathlib

/-!
# DataPool: a fixed-capacity slot pool

Shallow embedding of `include/dpool/DataPool.hpp` and of the manager of
`include/dpool/DataManager.hpp`.

* The three heap arrays of the class are lists whose length is the allocated
  extent. An access outside the extent is undefined behaviour in C++ and is the
  outcome `Outcome.undefined` here.
* `m_dataArray = new T[_size]()` is value-initialised, while
  `m_isFree = new bool[_size]` and `m_freeIndexes = new dataID_t[_size]` are
  not initialised: their initial contents are indeterminate, so the constructor
  takes them as the parameters `junkIsFree` and `junkFreeIndexes`.
* `size_t` values are natural numbers: every counter is bounded by the
  capacity, so no arithmetic of the class wraps around.
* A returned `T&` is the index of the slot it refers to.
-/

namespace DPool

/-- Slot handle, `using dataID_t = size_t`. -/
abbrev dataID_t := Nat

/-- The `std::runtime_error`s thrown by `DataPool`, one constructor per message. -/
inductive PoolError where
  /-- Message "No more Data Available" (thrown by `getFreeData`). -/
  | noMoreData
  /-- Message "Not available DataID: " followed by the id (thrown by `get`). -/
  | notAvailable (id : dataID_t)
  /-- Message "Not valid DataID: " followed by the id (thrown by `freeData`). -/
  | notValid (id : dataID_t)
  /-- Message "The data has already been fred" (thrown by `freeData`). -/
  | alreadyFred
  deriving DecidableEq

/-- Error kinds of the specification's taxonomy. -/
inductive ErrorKind where
  | PoolExhausted
  | InvalidHandle
  | DoubleRelease
  deriving DecidableEq

/-- Kind of each thrown message: both "Not available DataID" and
"Not valid DataID" are invalid-handle errors. -/
def PoolError.kind : PoolError → ErrorKind
  | .noMoreData => .PoolExhausted
  | .notAvailable _ => .InvalidHandle
  | .notValid _ => .InvalidHandle
  | .alreadyFred => .DoubleRelease

/-- Private members of `class DataPool<T>`. -/
structure DataPool (T : Type) where
  /-- Data Array -/
  m_dataArray : List T
  /-- Data Array size -/
  m_size : Nat
  /-- Max size the Data Array can have -/
  m_maxSize : Nat
  /-- Array of free indexes of the data array ready for reusability -/
  m_freeIndexes : List dataID_t
  /-- Number of free indexes in the array -/
  m_freeIndexesNumber : Nat
  /-- Boolean array having the availableness of an index -/
  m_isFree : List Bool
  deriving DecidableEq

/-- Result of a member call: a normal return with the new state, a thrown
`std::runtime_error` with the state at the throw, or undefined behaviour
(an array access outside its allocated extent). -/
inductive Outcome (T α : Type) where
  | ok (val : α) (s : DataPool T)
  | thrown (e : PoolError) (s : DataPool T)
  | undefined
  deriving DecidableEq

/-- Iterator over a pool: `T* ptr`, kept as the offset from `m_dataArray`. -/
structure IteratorDataPool where
  ptr : Nat
  deriving DecidableEq

namespace IteratorDataPool

/-- Prefix `operator ++`: `ptr++`. -/
def inc (it : IteratorDataPool) : IteratorDataPool := ⟨it.ptr + 1⟩

/-- Inequality test `operator !=`: `ptr != it.ptr`. -/
def ne (a b : IteratorDataPool) : Bool := a.ptr != b.ptr

/-- Equality test `operator ==`: `ptr == it.ptr`. -/
def eq (a b : IteratorDataPool) : Bool := a.ptr == b.ptr

end IteratorDataPool

namespace DataPool

variable {T : Type}

/-- Constructor `DataPool(size_t _size)`: `m_size(0)`, `m_maxSize(_size)`,
`m_freeIndexesNumber(0)`, a value-initialised data array and two arrays of
`_size` cells with indeterminate contents. -/
def new [Inhabited T] (_size : Nat) (junkIsFree : Nat → Bool)
    (junkFreeIndexes : Nat → dataID_t) : DataPool T where
  m_dataArray := List.replicate _size default
  m_size := 0
  m_maxSize := _size
  m_freeIndexes := (List.range _size).map junkFreeIndexes
  m_freeIndexesNumber := 0
  m_isFree := (List.range _size).map junkIsFree

/-- Accessor `isFree(_id)`: the unchecked read `m_isFree[_id]`; `none` when the
read is outside the array. -/
def isFree (p : DataPool T) (_id : dataID_t) : Option Bool :=
  p.m_isFree[_id]?

/-- Accessor `size()`: returns `m_size`. -/
def size (p : DataPool T) : Nat := p.m_size

/-- Member `get(_id)`: throws when `isFree(_id)`, else returns a reference to
`m_dataArray[_id]`. -/
def get (p : DataPool T) (_id : dataID_t) : Outcome T dataID_t :=
  match p.isFree _id with
  | none => .undefined
  | some true => .thrown (.notAvailable _id) p
  | some false =>
    if _id < p.m_dataArray.length then .ok _id p else .undefined

/-- Member `operator [] (_id)`: `return get(_id)`. -/
def subscript (p : DataPool T) (_id : dataID_t) : Outcome T dataID_t :=
  p.get _id

/-- Member `getFreeData()`. -/
def getFreeData (p : DataPool T) : Outcome T dataID_t :=
  if p.m_size ≥ p.m_maxSize then
    .thrown .noMoreData p
  else if p.m_freeIndexesNumber > 0 then
    -- m_isFree[m_freeIndexes[--m_freeIndexesNumber]] = false;
    -- return m_dataArray[m_freeIndexes[m_freeIndexesNumber]];
    match p.m_freeIndexes[p.m_freeIndexesNumber - 1]? with
    | none => .undefined
    | some idx =>
      if idx < p.m_isFree.length ∧ idx < p.m_dataArray.length then
        .ok idx { p with
          m_freeIndexesNumber := p.m_freeIndexesNumber - 1
          m_isFree := p.m_isFree.set idx false }
      else .undefined
  else
    -- m_isFree[m_size] = false; return m_dataArray[m_size++];
    if p.m_size < p.m_isFree.length ∧ p.m_size < p.m_dataArray.length then
      .ok p.m_size { p with
        m_isFree := p.m_isFree.set p.m_size false
        m_size := p.m_size + 1 }
    else .undefined

/-- Member `freeData(_id)`. -/
def freeData (p : DataPool T) (_id : dataID_t) : Outcome T Unit :=
  if _id > p.m_size then
    .thrown (.notValid _id) p
  else
    match p.m_isFree[_id]? with
    | none => .undefined
    | some true => .thrown .alreadyFred p
    | some false =>
      -- m_isFree[_id] = true; m_freeIndexes[m_freeIndexesNumber++] = _id;
      if p.m_freeIndexesNumber < p.m_freeIndexes.length then
        .ok () { p with
          m_isFree := p.m_isFree.set _id true
          m_freeIndexes := p.m_freeIndexes.set p.m_freeIndexesNumber _id
          m_freeIndexesNumber := p.m_freeIndexesNumber + 1 }
      else .undefined

/-- Member `begin()`: iterator at `m_dataArray`. -/
def begin (_p : DataPool T) : IteratorDataPool := ⟨0⟩

/-- Member `end()`: iterator at `m_dataArray + m_size`. -/
def end_ (p : DataPool T) : IteratorDataPool := ⟨p.m_size⟩

/-- Dereference `operator *` of an iterator of this pool; `none` when the
pointer is outside the data array. -/
def deref (p : DataPool T) (it : IteratorDataPool) : Option T :=
  p.m_dataArray[it.ptr]?

/-- The loop `for (; it != e; ++it) visit(*it)`, bounded by `fuel` iterations;
yields the visited (index, element) pairs, `none` when the fuel runs out or a
dereference leaves the array. -/
def traverseLoop (p : DataPool T) :
    Nat → IteratorDataPool → IteratorDataPool → Option (List (Nat × T))
  | 0, _, _ => none
  | fuel + 1, it, e =>
    if it.ne e then
      match p.deref it with
      | none => none
      | some v => (traverseLoop p fuel it.inc e).map (fun rest => (it.ptr, v) :: rest)
    else some []

/-- Iteration from `begin()` to `end()`. -/
def traverse (p : DataPool T) (fuel : Nat) : Option (List (Nat × T)) :=
  p.traverseLoop fuel p.begin p.end_

/-- The caller's assignment `pool.get(_id) = v` through the returned reference. -/
def store (p : DataPool T) (_id : dataID_t) (v : T) : Outcome T Unit :=
  match p.get _id with
  | .ok r s => .ok () { s with m_dataArray := s.m_dataArray.set r v }
  | .thrown e s => .thrown e s
  | .undefined => .undefined

end DataPool

/-- One call made by a client of the pool. -/
inductive Op (T : Type) where
  | getFreeData
  | freeData (id : dataID_t)
  | get (id : dataID_t)
  | store (id : dataID_t) (v : T)
  deriving DecidableEq

/-- What the client observes from one call. -/
inductive Reply where
  /-- Normal return of a reference to slot `r`. -/
  | slot (r : dataID_t)
  /-- Normal return of a `void` call. -/
  | done
  /-- A thrown error. -/
  | error (e : PoolError)
  deriving DecidableEq

namespace Outcome

variable {T α : Type}

/-- Observation and next state of an outcome; `none` for undefined behaviour. -/
def observe (f : α → Reply) : Outcome T α → Option (Reply × DataPool T)
  | .ok a s => some (f a, s)
  | .thrown e s => some (.error e, s)
  | .undefined => none

end Outcome

namespace DataPool

variable {T : Type}

/-- Perform one call. -/
def step (p : DataPool T) : Op T → Option (Reply × DataPool T)
  | .getFreeData => p.getFreeData.observe Reply.slot
  | .freeData id => (p.freeData id).observe (fun _ => Reply.done)
  | .get id => (p.get id).observe Reply.slot
  | .store id v => (p.store id v).observe (fun _ => Reply.done)

/-- Perform a sequence of calls, a thrown error being caught by the client;
returns the log of calls with their replies and the final state, `none` when a
call has undefined behaviour. -/
def exec (p : DataPool T) : List (Op T) → Option (List (Op T × Reply) × DataPool T)
  | [] => some ([], p)
  | op :: ops =>
    match p.step op with
    | none => none
    | some (r, q) =>
      match q.exec ops with
      | none => none
      | some (log, s) => some ((op, r) :: log, s)

/-- States reachable from construction by calls without undefined behaviour. -/
def Reachable [Inhabited T] (s : DataPool T) : Prop :=
  ∃ (N : Nat) (junkIsFree : Nat → Bool) (junkFreeIndexes : Nat → dataID_t)
    (ops : List (Op T)) (log : List (Op T × Reply)),
    (DataPool.new N junkIsFree junkFreeIndexes).exec ops = some (log, s)

end DataPool

/-- Number of successful `getFreeData` calls in a log. -/
def acquisitions {T : Type} : List (Op T × Reply) → Nat
  | [] => 0
  | (.getFreeData, .slot _) :: log => acquisitions log + 1
  | _ :: log => acquisitions log

/-- Number of successful `freeData` calls in a log. -/
def releases {T : Type} : List (Op T × Reply) → Nat
  | [] => 0
  | (.freeData _, .done) :: log => releases log + 1
  | _ :: log => releases log

/-- The free stack: the cells `m_freeIndexes[0 .. m_freeIndexesNumber)`. -/
def DataPool.freeStack {T : Type} (p : DataPool T) : List dataID_t :=
  p.m_freeIndexes.take p.m_freeIndexesNumber

/-- The free-stack invariant in the specification's words: the stack has no
duplicate, every stacked index is below the high-water mark and flagged free,
and every index below the high-water mark that is flagged free is stacked. -/
def DataPool.FreeStackInvariant {T : Type} (p : DataPool T) : Prop :=
  p.freeStack.Nodup ∧
  (∀ i ∈ p.freeStack, i < p.m_size ∧ p.m_isFree[i]? = some true) ∧
  (∀ i < p.m_size, p.m_isFree[i]? = some true → i ∈ p.freeStack)

instance {T : Type} (p : DataPool T) : Decidable p.FreeStackInvariant := by
  unfold DataPool.FreeStackInvariant
  infer_instance

/-- The slot state machine event a logged call is for slot `id`, if any:
`some false` (Occupied) for a `getFreeData` that returned slot `id`,
`some true` (Free) for a successful `freeData(id)`. -/
def eventOn {T : Type} (id : dataID_t) : Op T × Reply → Option Bool
  | (.getFreeData, .slot r) => if r = id then some false else none
  | (.freeData j, .done) => if j = id then some true else none
  | _ => none

/-- The most recent acquire or release event on slot `id` in a log (the log is
in call order, so the last entry with an event wins). -/
def lastEvent {T : Type} (id : dataID_t) : List (Op T × Reply) → Option Bool
  | [] => none
  | e :: log =>
    match lastEvent id log with
    | some b => some b
    | none => eventOn id e

/-! ### The manager of `include/dpool/DataManager.hpp` -/

/-- Private members of `class DataManager<T>`. The `float` argument of the
callback is only passed through, so its type is the parameter `F`. The
callback `void (*)(float, DataManager<T>&)` is `none` for `nullptr`, else its
effect on the owned pool, the only state it can reach through the manager
reference. -/
structure DataManager (F T : Type) where
  /-- Data Pool -/
  m_dataPool : DataPool T
  /-- Pointer to a function for updating values of the DataPool -/
  m_updateCallback : Option (F → DataPool T → Outcome T Unit)

/-- What a call of `DataManager::update` did. -/
inductive UpdateResult (T : Type) where
  /-- It threw "UpdateCallback is a nullptr". -/
  | nullCallback
  /-- It returned what the callback did to the pool. -/
  | ran (result : Outcome T Unit)

/-- Outcome of `DataManager::update`: the callback invocations it made, each
with its arguments (the delta and the pool of the manager passed by
reference), and the result. -/
structure UpdateOutcome (F T : Type) where
  calls : List (F × DataPool T)
  result : UpdateResult T

namespace DataManager

variable {F T : Type}

/-- Constructor `DataManager(_maxSize, _updateCallback)`:
`m_dataPool(_maxSize), m_updateCallback(_updateCallback)`. -/
def new [Inhabited T] (_maxSize : Nat)
    (_updateCallback : Option (F → DataPool T → Outcome T Unit))
    (junkIsFree : Nat → Bool) (junkFreeIndexes : Nat → dataID_t) : DataManager F T where
  m_dataPool := DataPool.new _maxSize junkIsFree junkFreeIndexes
  m_updateCallback := _updateCallback

/-- Member `update(delta)`: throws when `m_updateCallback == nullptr`, else
`m_updateCallback(delta, *this)`. -/
def update (m : DataManager F T) (delta : F) : UpdateOutcome F T :=
  match m.m_updateCallback with
  | none => ⟨[], .nullCallback⟩
  | some f => ⟨[(delta, m.m_dataPool)], .ran (f delta m.m_dataPool)⟩

/-- Member `getDataPool()`: address of `m_dataPool`. -/
def getDataPool (m : DataManager F T) : DataPool T := m.m_dataPool

/-- Member `notify()`: empty body. -/
def notify (m : DataManager F T) : DataManager F T := m

end DataManager

/-! ## Structural invariant of reachable states -/

namespace DataPool

variable {T : Type}

/-- The three arrays keep their allocated extent `m_maxSize` and the
high-water mark stays within it. -/
structure Inv (p : DataPool T) : Prop where
  data_len : p.m_dataArray.length = p.m_maxSize
  free_len : p.m_freeIndexes.length = p.m_maxSize
  flag_len : p.m_isFree.length = p.m_maxSize
  size_le : p.m_size ≤ p.m_maxSize

theorem inv_new [Inhabited T] (N : Nat) (jb : Nat → Bool) (ji : Nat → dataID_t) :
    Inv (DataPool.new N jb ji : DataPool T) :=
  ⟨by simp [DataPool.new], by simp [DataPool.new], by simp [DataPool.new],
    by simp [DataPool.new]⟩

theorem getFreeData_thrown {p q : DataPool T} {e : PoolError}
    (h : p.getFreeData = .thrown e q) : q = p ∧ e = .noMoreData := by
  unfold getFreeData at h
  split at h
  · injection h with h1 h2
    exact ⟨h2.symm, h1.symm⟩
  · split at h
    · split at h
      · cases h
      · split at h <;> cases h
    · split at h <;> cases h

theorem freeData_thrown {p q : DataPool T} {id : dataID_t} {e : PoolError}
    (h : p.freeData id = .thrown e q) : q = p := by
  unfold freeData at h
  split at h
  · injection h with h1 h2
    exact h2.symm
  · split at h
    · cases h
    · injection h with h1 h2
      exact h2.symm
    · split at h <;> cases h

theorem get_state {p q : DataPool T} {id r : dataID_t}
    (h : p.get id = .ok r q) : q = p ∧ r = id := by
  unfold get at h
  split at h
  · cases h
  · cases h
  · split at h
    · injection h with h1 h2
      exact ⟨h2.symm, h1.symm⟩
    · cases h

theorem get_thrown {p q : DataPool T} {id : dataID_t} {e : PoolError}
    (h : p.get id = .thrown e q) : q = p := by
  unfold get at h
  split at h
  · cases h
  · injection h with h1 h2
    exact h2.symm
  · split at h <;> cases h

theorem inv_getFreeData {p q : DataPool T} {r : dataID_t}
    (h : p.getFreeData = .ok r q) (hp : Inv p) : Inv q := by
  obtain ⟨h1, h2, h3, h4⟩ := hp
  unfold getFreeData at h
  split at h
  · cases h
  · split at h
    · split at h
      · cases h
      · split at h
        · injection h with _ hq
          subst hq
          exact ⟨by simpa using h1, by simpa using h2, by simpa using h3, by simpa using h4⟩
        · cases h
    · split at h
      · injection h with _ hq
        subst hq
        refine ⟨by simpa using h1, by simpa using h2, by simpa using h3, ?_⟩
        show p.m_size + 1 ≤ p.m_maxSize
        omega
      · cases h

theorem inv_freeData {p q : DataPool T} {id : dataID_t}
    (h : p.freeData id = .ok () q) (hp : Inv p) : Inv q := by
  obtain ⟨h1, h2, h3, h4⟩ := hp
  unfold freeData at h
  split at h
  · cases h
  · split at h
    · cases h
    · cases h
    · split at h
      · injection h with _ hq
        subst hq
        exact ⟨by simpa using h1, by simpa using h2, by simpa using h3, by simpa using h4⟩
      · cases h

theorem inv_store {p q : DataPool T} {id : dataID_t} {v : T}
    (h : p.store id v = .ok () q) (hp : Inv p) : Inv q := by
  obtain ⟨h1, h2, h3, h4⟩ := hp
  unfold store at h
  split at h
  · rename_i r s hg
    obtain ⟨hs, _⟩ := get_state hg
    subst hs
    injection h with _ hq
    subst hq
    exact ⟨by simpa using h1, by simpa using h2, by simpa using h3, by simpa using h4⟩
  · cases h
  · cases h

theorem store_thrown {p q : DataPool T} {id : dataID_t} {v : T} {e : PoolError}
    (h : p.store id v = .thrown e q) : q = p := by
  unfold store at h
  split at h
  · cases h
  · rename_i e1 s hg
    injection h with _ hq
    subst hq
    exact get_thrown hg
  · cases h

theorem inv_step {p q : DataPool T} {op : Op T} {r : Reply}
    (h : p.step op = some (r, q)) (hp : Inv p) : Inv q := by
  cases op with
  | getFreeData =>
    simp only [step] at h
    cases hg : p.getFreeData with
    | ok a s =>
      rw [hg] at h
      simp only [Outcome.observe, Option.some.injEq, Prod.mk.injEq] at h
      exact h.2 ▸ inv_getFreeData hg hp
    | thrown e s =>
      rw [hg] at h
      simp only [Outcome.observe, Option.some.injEq, Prod.mk.injEq] at h
      rw [← h.2, (getFreeData_thrown hg).1]
      exact hp
    | undefined => rw [hg] at h; cases h
  | freeData id =>
    simp only [step] at h
    cases hg : p.freeData id with
    | ok a s =>
      rw [hg] at h
      simp only [Outcome.observe, Option.some.injEq, Prod.mk.injEq] at h
      exact h.2 ▸ inv_freeData hg hp
    | thrown e s =>
      rw [hg] at h
      simp only [Outcome.observe, Option.some.injEq, Prod.mk.injEq] at h
      rw [← h.2, freeData_thrown hg]
      exact hp
    | undefined => rw [hg] at h; cases h
  | get id =>
    simp only [step] at h
    cases hg : p.get id with
    | ok a s =>
      rw [hg] at h
      simp only [Outcome.observe, Option.some.injEq, Prod.mk.injEq] at h
      rw [← h.2, (get_state hg).1]
      exact hp
    | thrown e s =>
      rw [hg] at h
      simp only [Outcome.observe, Option.some.injEq, Prod.mk.injEq] at h
      rw [← h.2, get_thrown hg]
      exact hp
    | undefined => rw [hg] at h; cases h
  | store id v =>
    simp only [step] at h
    cases hg : p.store id v with
    | ok a s =>
      rw [hg] at h
      simp only [Outcome.observe, Option.some.injEq, Prod.mk.injEq] at h
      exact h.2 ▸ inv_store hg hp
    | thrown e s =>
      rw [hg] at h
      simp only [Outcome.observe, Option.some.injEq, Prod.mk.injEq] at h
      rw [← h.2, store_thrown hg]
      exact hp
    | undefined => rw [hg] at h; cases h

theorem exec_cons {p s : DataPool T} {op : Op T} {ops : List (Op T)}
    {log : List (Op T × Reply)} (h : p.exec (op :: ops) = some (log, s)) :
    ∃ r q rest, p.step op = some (r, q) ∧ q.exec ops = some (rest, s) ∧
      log = (op, r) :: rest := by
  simp only [exec] at h
  split at h
  · cases h
  · rename_i r q hs
    split at h
    · cases h
    · rename_i rest s1 he
      simp only [Option.some.injEq, Prod.mk.injEq] at h
      exact ⟨r, q, rest, hs, h.2 ▸ he, h.1.symm⟩

theorem inv_exec {ops : List (Op T)} : ∀ {p s : DataPool T} {log : List (Op T × Reply)},
    p.exec ops = some (log, s) → Inv p → Inv s := by
  induction ops with
  | nil =>
    intro p s log h hp
    simp only [exec, Option.some.injEq, Prod.mk.injEq] at h
    exact h.2 ▸ hp
  | cons op ops ih =>
    intro p s log h hp
    obtain ⟨r, q, rest, hs, he, _⟩ := exec_cons h
    exact ih he (inv_step hs hp)

theorem inv_of_reachable [Inhabited T] {s : DataPool T} (h : Reachable s) : Inv s := by
  obtain ⟨N, jb, ji, ops, log, he⟩ := h
  exact inv_exec he (inv_new N jb ji)

end DataPool

/-! ## Capacity bound -/

namespace DataPool

variable {T : Type}

theorem getFreeData_grow {p : DataPool T} (hp : Inv p) (h0 : p.m_freeIndexesNumber = 0)
    (hlt : p.m_size < p.m_maxSize) :
    p.getFreeData = .ok p.m_size { p with
      m_isFree := p.m_isFree.set p.m_size false
      m_size := p.m_size + 1 } := by
  unfold getFreeData
  rw [if_neg (by omega), if_neg (by omega), if_pos]
  exact ⟨by rw [hp.flag_len]; exact hlt, by rw [hp.data_len]; exact hlt⟩

theorem getFreeData_full {p : DataPool T} (h : p.m_maxSize ≤ p.m_size) :
    p.getFreeData = .thrown .noMoreData p := by
  unfold getFreeData
  rw [if_pos h]

theorem exec_acquire_run (d : Nat) : ∀ p : DataPool T, Inv p → p.m_freeIndexesNumber = 0 →
    p.m_size + d = p.m_maxSize →
    ∃ s, p.exec (List.replicate (d + 1) Op.getFreeData) =
      some ((List.range' p.m_size d).map (fun i => (Op.getFreeData, Reply.slot i)) ++
        [(Op.getFreeData, Reply.error PoolError.noMoreData)], s) := by
  induction d with
  | zero =>
    intro p _ _ hd
    refine ⟨p, ?_⟩
    simp [exec, step, getFreeData_full (p := p) (by omega), Outcome.observe]
  | succ d ih =>
    intro p hp h0 hd
    have hg := getFreeData_grow hp h0 (by omega)
    have hq := inv_getFreeData hg hp
    obtain ⟨s, hs⟩ := ih _ hq h0 (by show p.m_size + 1 + d = p.m_maxSize; omega)
    refine ⟨s, ?_⟩
    rw [List.replicate_succ, exec]
    simp only [step, hg, Outcome.observe]
    rw [hs]
    simp [List.range'_succ]

end DataPool

/-- C1 (capacity bound): on a freshly constructed pool of any capacity `N`,
whatever the uninitialised contents of its bookkeeping arrays, `N + 1`
consecutive `getFreeData` calls run without undefined behaviour, the first `N`
return the slots `0, ..., N - 1` and the last one throws
"No more Data Available". -/
theorem C1_capacity_bound {T : Type} [Inhabited T] (N : Nat) (junkIsFree : Nat → Bool)
    (junkFreeIndexes : Nat → dataID_t) :
    ∃ s : DataPool T,
      (DataPool.new N junkIsFree junkFreeIndexes : DataPool T).exec
          (List.replicate (N + 1) Op.getFreeData) =
        some ((List.range N).map (fun i => (Op.getFreeData, Reply.slot i)) ++
          [(Op.getFreeData, Reply.error PoolError.noMoreData)], s) ∧
      PoolError.noMoreData.kind = ErrorKind.PoolExhausted := by
  obtain ⟨s, hs⟩ := DataPool.exec_acquire_run N
    (DataPool.new N junkIsFree junkFreeIndexes : DataPool T)
    (DataPool.inv_new N junkIsFree junkFreeIndexes) rfl (by simp [DataPool.new])
  refine ⟨s, ?_, rfl⟩
  rw [hs, List.range_eq_range']
  rfl

/-! ## Reuse at capacity -/

/-- C2 (reuse unblocks exhaustion), evaluated on the code: capacity 3, three
acquisitions return slots 0, 1, 2, a fourth throws, `freeData(1)` succeeds, and
the next `getFreeData` still throws "No more Data Available" instead of
returning slot 1, because `m_size >= m_maxSize` is tested before the free
stack is consulted. -/
theorem C2_reuse_blocked_at_capacity :
    ((DataPool.new 3 (fun _ => true) (fun _ => 0) : DataPool Nat).exec
        [.getFreeData, .getFreeData, .getFreeData, .getFreeData, .freeData 1,
          .getFreeData]).map (fun r => (r.1.map Prod.snd, r.2.freeStack, r.2.m_size)) =
      some ([.slot 0, .slot 1, .slot 2, .error .noMoreData, .done, .error .noMoreData],
        [1], 3) := by
  decide

/-- C3 (reuse correctness), evaluated on the code: capacity 1, `getFreeData`
returns slot 0, `freeData(0)` succeeds, and the following `getFreeData` throws
"No more Data Available" instead of returning slot 0 again. -/
theorem C3_reacquire_fails_at_capacity :
    ((DataPool.new 1 (fun _ => true) (fun _ => 0) : DataPool Nat).exec
        [.getFreeData, .freeData 0, .getFreeData]).map
        (fun r => (r.1.map Prod.snd, r.2.freeStack, r.2.m_size)) =
      some ([.slot 0, .done, .error .noMoreData], [0], 1) := by
  decide

/-! ## Range check of `freeData` -/

/-- C4 (release rejects never-issued ids), evaluated on the code at the
boundary `id == m_size`: on a fresh pool of capacity 1 (high-water mark 0)
`freeData(0)` passes the test `_id > m_size`; it then reads the uninitialised
flag `m_isFree[0]` and either succeeds, stacking the never-issued slot 0, or
throws "The data has already been fred". With the pool filled, `freeData(1)`
reads `m_isFree[1]` outside the array. "Not valid DataID" is thrown in none of
the three runs. -/
theorem C4_boundary_id_not_rejected :
    (DataPool.new 1 (fun _ => false) (fun _ => 0) : DataPool Nat).freeData 0 =
        .ok () ⟨[0], 0, 1, [0], 1, [true]⟩ ∧
      (DataPool.new 1 (fun _ => true) (fun _ => 0) : DataPool Nat).freeData 0 =
        .thrown .alreadyFred (DataPool.new 1 (fun _ => true) (fun _ => 0)) ∧
      (DataPool.new 1 (fun _ => true) (fun _ => 0) : DataPool Nat).getFreeData =
        .ok 0 ⟨[0], 1, 1, [0], 0, [false]⟩ ∧
      (⟨[0], 1, 1, [0], 0, [false]⟩ : DataPool Nat).freeData 1 = .undefined := by
  decide

/-! ## Double release -/

/-- C6 (lookup of in-range ids): in every reachable state and for every
`id < m_size`, the flag `m_isFree[id]` and the element `m_dataArray[id]` exist;
`get(id)` throws exactly when the flag is set, the error then being
"Not available DataID" (invalid-handle kind) with the state unchanged;
otherwise it returns the reference to `m_dataArray[id]`; and `operator[]`
gives the same outcome as `get`. -/
theorem C6_lookup_in_range {T : Type} [Inhabited T] (s : DataPool T)
    (hr : DataPool.Reachable s) (id : dataID_t) (hid : id < s.m_size) :
    (∃ b, s.isFree id = some b) ∧
      (∃ v, s.deref ⟨id⟩ = some v) ∧
      ((∃ e q, s.get id = .thrown e q) ↔ s.isFree id = some true) ∧
      (s.isFree id = some true →
        s.get id = .thrown (.notAvailable id) s ∧
          (PoolError.notAvailable id).kind = ErrorKind.InvalidHandle) ∧
      (s.isFree id = some false → s.get id = .ok id s) ∧
      s.subscript id = s.get id := by
  have hinv := DataPool.inv_of_reachable hr
  have hflag : id < s.m_isFree.length := by
    rw [hinv.flag_len]; exact Nat.lt_of_lt_of_le hid hinv.size_le
  have hdata : id < s.m_dataArray.length := by
    rw [hinv.data_len]; exact Nat.lt_of_lt_of_le hid hinv.size_le
  have hget : s.isFree id = some (s.m_isFree[id]) := by
    simp [DataPool.isFree, List.getElem?_eq_getElem hflag]
  refine ⟨⟨_, hget⟩, ⟨s.m_dataArray[id], ?_⟩, ?_, ?_, ?_, rfl⟩
  · simp [DataPool.deref, List.getElem?_eq_getElem hdata]
  · cases hb : s.m_isFree[id] with
    | true =>
      rw [hb] at hget
      simp [DataPool.get, hget]
    | false =>
      rw [hb] at hget
      simp [DataPool.get, hget, hdata]
  · intro ht
    simp [DataPool.get, ht, PoolError.kind]
  · intro hf
    simp [DataPool.get, hf, hdata]

/-- Witness for C6: capacity 2, both slots acquired, slot 0 released;
`get(0)` throws and `get(1)` returns slot 1. -/
theorem C6_lookup_in_range_witness :
    (⟨[0, 0], 2, 2, [0, 0], 1, [true, false]⟩ : DataPool Nat).get 0 =
        .thrown (.notAvailable 0) ⟨[0, 0], 2, 2, [0, 0], 1, [true, false]⟩ ∧
      (⟨[0, 0], 2, 2, [0, 0], 1, [true, false]⟩ : DataPool Nat).get 1 =
        .ok 1 ⟨[0, 0], 2, 2, [0, 0], 1, [true, false]⟩ :=
  have hr : DataPool.Reachable (⟨[0, 0], 2, 2, [0, 0], 1, [true, false]⟩ : DataPool Nat) :=
    ⟨2, fun _ => true, fun _ => 0, [.getFreeData, .getFreeData, .freeData 0],
      [(.getFreeData, .slot 0), (.getFreeData, .slot 1), (.freeData 0, .done)], by decide⟩
  ⟨((C6_lookup_in_range _ hr 0 (by decide)).2.2.2.1 (by decide)).1,
    (C6_lookup_in_range _ hr 1 (by decide)).2.2.2.2.1 (by decide)⟩

/-- C7 (lookup rejects never-issued ids), evaluated on the code: on a fresh
pool of capacity 1 whose uninitialised flag array holds `false`, `get(0)`
returns a reference to slot 0 although no slot was ever issued; and `get(1)`
reads `m_isFree[1]` outside the array. Neither call throws. -/
theorem C7_never_issued_id_not_rejected :
    (DataPool.new 1 (fun _ => false) (fun _ => 0) : DataPool Nat).m_size = 0 ∧
      (DataPool.new 1 (fun _ => false) (fun _ => 0) : DataPool Nat).get 0 =
        .ok 0 (DataPool.new 1 (fun _ => false) (fun _ => 0)) ∧
      (DataPool.new 1 (fun _ => false) (fun _ => 0) : DataPool Nat).get 1 = .undefined ∧
      (DataPool.new 1 (fun _ => true) (fun _ => 0) : DataPool Nat).get 1 = .undefined := by
  decide

/-! ## What `size()` counts -/

theorem acquisitions_cons {T : Type} (op : Op T) (r : Reply) (log : List (Op T × Reply)) :
    acquisitions ((op, r) :: log) = acquisitions [(op, r)] + acquisitions log := by
  cases op <;> cases r <;> simp [acquisitions, Nat.add_comm]

theorem releases_cons {T : Type} (op : Op T) (r : Reply) (log : List (Op T × Reply)) :
    releases ((op, r) :: log) = releases [(op, r)] + releases log := by
  cases op <;> cases r <;> simp [releases, Nat.add_comm]

namespace DataPool

variable {T : Type}

theorem getFreeData_ok_counts {p q : DataPool T} {r : dataID_t}
    (h : p.getFreeData = .ok r q) :
    q.m_size + p.m_freeIndexesNumber = 1 + q.m_freeIndexesNumber + p.m_size := by
  unfold getFreeData at h
  split at h
  · cases h
  · split at h
    · rename_i hpos
      split at h
      · cases h
      · split at h
        · injection h with _ hq
          subst hq
          show p.m_size + p.m_freeIndexesNumber = 1 + (p.m_freeIndexesNumber - 1) + p.m_size
          omega
        · cases h
    · split at h
      · injection h with _ hq
        subst hq
        show p.m_size + 1 + p.m_freeIndexesNumber = 1 + p.m_freeIndexesNumber + p.m_size
        omega
      · cases h

theorem freeData_ok_counts {p q : DataPool T} {id : dataID_t}
    (h : p.freeData id = .ok () q) :
    q.m_size = p.m_size ∧ q.m_freeIndexesNumber = p.m_freeIndexesNumber + 1 := by
  unfold freeData at h
  split at h
  · cases h
  · split at h
    · cases h
    · cases h
    · split at h
      · injection h with _ hq
        subst hq
        exact ⟨rfl, rfl⟩
      · cases h

theorem store_ok_counts {p q : DataPool T} {id : dataID_t} {v : T}
    (h : p.store id v = .ok () q) :
    q.m_size = p.m_size ∧ q.m_freeIndexesNumber = p.m_freeIndexesNumber := by
  unfold store at h
  split at h
  · rename_i r s hg
    obtain ⟨hs, _⟩ := get_state hg
    subst hs
    injection h with _ hq
    subst hq
    exact ⟨rfl, rfl⟩
  · cases h
  · cases h

theorem step_counts {p q : DataPool T} {op : Op T} {r : Reply}
    (h : p.step op = some (r, q)) :
    q.m_size + releases [(op, r)] + p.m_freeIndexesNumber =
      acquisitions [(op, r)] + q.m_freeIndexesNumber + p.m_size := by
  cases op with
  | getFreeData =>
    simp only [step] at h
    cases hg : p.getFreeData with
    | ok a s =>
      rw [hg] at h
      simp only [Outcome.observe, Option.some.injEq, Prod.mk.injEq] at h
      obtain ⟨hr, hq⟩ := h
      subst hr hq
      have := getFreeData_ok_counts hg
      simp only [acquisitions, releases]
      omega
    | thrown e s =>
      rw [hg] at h
      simp only [Outcome.observe, Option.some.injEq, Prod.mk.injEq] at h
      obtain ⟨hr, hq⟩ := h
      subst hr hq
      rw [(getFreeData_thrown hg).1]
      simp only [acquisitions, releases]
      omega
    | undefined => rw [hg] at h; cases h
  | freeData id =>
    simp only [step] at h
    cases hg : p.freeData id with
    | ok a s =>
      rw [hg] at h
      simp only [Outcome.observe, Option.some.injEq, Prod.mk.injEq] at h
      obtain ⟨hr, hq⟩ := h
      subst hr hq
      have := freeData_ok_counts hg
      simp only [acquisitions, releases]
      omega
    | thrown e s =>
      rw [hg] at h
      simp only [Outcome.observe, Option.some.injEq, Prod.mk.injEq] at h
      obtain ⟨hr, hq⟩ := h
      subst hr hq
      rw [freeData_thrown hg]
      simp only [acquisitions, releases]
      omega
    | undefined => rw [hg] at h; cases h
  | get id =>
    simp only [step] at h
    cases hg : p.get id with
    | ok a s =>
      rw [hg] at h
      simp only [Outcome.observe, Option.some.injEq, Prod.mk.injEq] at h
      obtain ⟨hr, hq⟩ := h
      subst hr hq
      rw [(get_state hg).1]
      simp only [acquisitions, releases]
      omega
    | thrown e s =>
      rw [hg] at h
      simp only [Outcome.observe, Option.some.injEq, Prod.mk.injEq] at h
      obtain ⟨hr, hq⟩ := h
      subst hr hq
      rw [get_thrown hg]
      simp only [acquisitions, releases]
      omega
    | undefined => rw [hg] at h; cases h
  | store id v =>
    simp only [step] at h
    cases hg : p.store id v with
    | ok a s =>
      rw [hg] at h
      simp only [Outcome.observe, Option.some.injEq, Prod.mk.injEq] at h
      obtain ⟨hr, hq⟩ := h
      subst hr hq
      have := store_ok_counts hg
      simp only [acquisitions, releases]
      omega
    | thrown e s =>
      rw [hg] at h
      simp only [Outcome.observe, Option.some.injEq, Prod.mk.injEq] at h
      obtain ⟨hr, hq⟩ := h
      subst hr hq
      rw [store_thrown hg]
      simp only [acquisitions, releases]
      omega
    | undefined => rw [hg] at h; cases h

theorem exec_counts {ops : List (Op T)} : ∀ {p s : DataPool T} {log : List (Op T × Reply)},
    p.exec ops = some (log, s) →
    s.m_size + releases log + p.m_freeIndexesNumber =
      acquisitions log + s.m_freeIndexesNumber + p.m_size := by
  induction ops with
  | nil =>
    intro p s log h
    simp only [exec, Option.some.injEq, Prod.mk.injEq] at h
    obtain ⟨hl, hs⟩ := h
    subst hl hs
    simp only [acquisitions, releases]
    omega
  | cons op ops ih =>
    intro p s log h
    obtain ⟨r, q, rest, hs, he, hl⟩ := exec_cons h
    have h1 := step_counts hs
    have h2 := ih he
    rw [hl, acquisitions_cons, releases_cons]
    omega

end DataPool

/-- C8 as stated fails: on a pool of capacity 2, after one successful
`getFreeData` and one successful `freeData(0)` (k = 1, m = 1) `size()` returns
1, not k - m = 0. -/
theorem C8_size_is_not_occupied_count :
    ((DataPool.new 2 (fun _ => true) (fun _ => 0) : DataPool Nat).exec
        [.getFreeData, .freeData 0]).map
        (fun r => (acquisitions r.1, releases r.1, r.2.size,
          decide (r.2.size = acquisitions r.1 - releases r.1))) =
      some (1, 1, 1, false) := by
  decide

/-- C8 amended: after any sequence of calls on a fresh pool whose log holds
`k` successful `getFreeData` calls and `m <= k` successful `freeData` calls,
`size()` returns the high-water mark `m_size`, which is
`(k - m) + m_freeIndexesNumber`; so `size()` is `k - m` exactly when the free
stack is empty; and a successful `freeData` leaves `size()` unchanged. -/
theorem C8_size_is_high_water_mark {T : Type} [Inhabited T] (N : Nat)
    (junkIsFree : Nat → Bool) (junkFreeIndexes : Nat → dataID_t) (ops : List (Op T))
    (log : List (Op T × Reply)) (s : DataPool T)
    (h : (DataPool.new N junkIsFree junkFreeIndexes : DataPool T).exec ops = some (log, s))
    (hm : releases log ≤ acquisitions log) :
    s.size = s.m_size ∧
      s.size = (acquisitions log - releases log) + s.m_freeIndexesNumber ∧
      (s.size = acquisitions log - releases log ↔ s.m_freeIndexesNumber = 0) ∧
      (∀ id q, s.freeData id = .ok () q → q.size = s.size) := by
  have hc := DataPool.exec_counts h
  simp only [DataPool.new] at hc
  refine ⟨rfl, ?_, ?_, ?_⟩
  · show s.m_size = (acquisitions log - releases log) + s.m_freeIndexesNumber
    omega
  · show s.m_size = acquisitions log - releases log ↔ s.m_freeIndexesNumber = 0
    omega
  · intro id q hq
    exact (DataPool.freeData_ok_counts hq).1

/-- Witness for the amended C8: capacity 2, acquire, acquire, release 0
(k = 2, m = 1): `size()` is 2 = (2 - 1) + 1. -/
theorem C8_size_is_high_water_mark_witness :
    (⟨[0, 0], 2, 2, [0, 0], 1, [true, false]⟩ : DataPool Nat).size = (2 - 1) + 1 :=
  (C8_size_is_high_water_mark 2 (fun _ => true) (fun _ => 0)
    [.getFreeData, .getFreeData, .freeData 0]
    [(.getFreeData, .slot 0), (.getFreeData, .slot 1), (.freeData 0, .done)]
    (⟨[0, 0], 2, 2, [0, 0], 1, [true, false]⟩ : DataPool Nat) (by decide) (by decide)).2.1

/-! ## Traversal -/

namespace DataPool

variable {T : Type}

theorem traverseLoop_spec (p : DataPool T) (e : Nat) (he : e ≤ p.m_dataArray.length) :
    ∀ (d i fuel : Nat), i + d = e → d < fuel →
      ∃ vs, p.traverseLoop fuel ⟨i⟩ ⟨e⟩ = some vs ∧
        vs.map Prod.fst = List.range' i d ∧
        vs.map Prod.snd = (p.m_dataArray.drop i).take d := by
  intro d
  induction d with
  | zero =>
    intro i fuel hi hf
    obtain ⟨f, rfl⟩ : ∃ f, fuel = f + 1 := ⟨fuel - 1, by omega⟩
    have hie : i = e := by omega
    subst hie
    refine ⟨[], ?_, by simp, by simp⟩
    simp [traverseLoop, IteratorDataPool.ne]
  | succ d ih =>
    intro i fuel hi hf
    obtain ⟨f, rfl⟩ : ∃ f, fuel = f + 1 := ⟨fuel - 1, by omega⟩
    have hlt : i < p.m_dataArray.length := by omega
    have hne : i ≠ e := by omega
    obtain ⟨vs, hvs, h1, h2⟩ := ih (i + 1) f (by omega) (by omega)
    refine ⟨(i, p.m_dataArray[i]) :: vs, ?_, ?_, ?_⟩
    · simp only [traverseLoop, IteratorDataPool.ne, IteratorDataPool.inc, deref,
        List.getElem?_eq_getElem hlt]
      simp [hne, hvs]
    · simp [h1, List.range'_succ]
    · show p.m_dataArray[i] :: vs.map Prod.snd = _
      rw [h2, List.drop_eq_getElem_cons hlt, List.take_succ_cons]

end DataPool

/-- C9 (traversal): in every reachable state, the loop from `begin()` to
`end()` with `operator++` terminates (any fuel above `m_size` suffices) and
visits exactly `m_size` slots: the indices `0, 1, ..., m_size - 1` in
increasing order, each with the element stored in the data array at that
index, whether the slot is free or occupied, and no index at or above the
high-water mark. -/
theorem C9_traversal {T : Type} [Inhabited T] (s : DataPool T)
    (hr : DataPool.Reachable s) (fuel : Nat) (hf : s.m_size < fuel) :
    ∃ vs, s.traverse fuel = some vs ∧
      vs.length = s.m_size ∧
      vs.map Prod.fst = List.range s.m_size ∧
      vs.map Prod.snd = s.m_dataArray.take s.m_size ∧
      (∀ i, i < s.m_size → (s.isFree i = some true ∨ s.isFree i = some false) ∧
        i ∈ vs.map Prod.fst) ∧
      (∀ i, s.m_size ≤ i → i ∉ vs.map Prod.fst) := by
  have hinv := DataPool.inv_of_reachable hr
  have hlen : s.m_size ≤ s.m_dataArray.length := by
    rw [hinv.data_len]; exact hinv.size_le
  obtain ⟨vs, hvs, h1, h2⟩ :=
    DataPool.traverseLoop_spec s s.m_size hlen s.m_size 0 fuel (by omega) hf
  have hfst : vs.map Prod.fst = List.range s.m_size := by
    rw [h1, List.range_eq_range']
  refine ⟨vs, hvs, ?_, hfst, by simpa using h2, ?_, ?_⟩
  · have := congrArg List.length hfst
    simpa using this
  · intro i hi
    refine ⟨?_, by rw [hfst]; exact List.mem_range.mpr hi⟩
    have hflag : i < s.m_isFree.length := by
      rw [hinv.flag_len]; exact Nat.lt_of_lt_of_le hi hinv.size_le
    cases hb : s.m_isFree[i] with
    | true => left; simp [DataPool.isFree, List.getElem?_eq_getElem hflag, hb]
    | false => right; simp [DataPool.isFree, List.getElem?_eq_getElem hflag, hb]
  · intro i hi
    rw [hfst, List.mem_range]
    omega

/-- Witness for C9: capacity 3, two slots acquired and written, slot 0
released; the traversal yields both slots, the free one included. -/
theorem C9_traversal_witness :
    ∃ vs, (⟨[7, 9, 0], 2, 3, [0, 0, 0], 1, [true, false, true]⟩ : DataPool Nat).traverse 3 =
        some vs ∧ vs.length = 2 ∧ vs.map Prod.fst = List.range 2 ∧
      vs.map Prod.snd = [7, 9] :=
  have hr : DataPool.Reachable
      (⟨[7, 9, 0], 2, 3, [0, 0, 0], 1, [true, false, true]⟩ : DataPool Nat) :=
    ⟨3, fun _ => true, fun _ => 0,
      [.getFreeData, .store 0 7, .getFreeData, .store 1 9, .freeData 0],
      [(.getFreeData, .slot 0), (.store 0 7, .done), (.getFreeData, .slot 1),
        (.store 1 9, .done), (.freeData 0, .done)], by decide⟩
  match C9_traversal _ hr 3 (by decide) with
  | ⟨vs, h1, h2, h3, h4, _⟩ => ⟨vs, h1, h2, h3, h4⟩

/-! ## The free-stack invariant -/

/-- C10 (free-stack invariant), evaluated on the code: on a fresh pool of
capacity 1 whose uninitialised flag array holds `false`, `freeData(0)`
succeeds (0 passes the test `_id > m_size`), leaving the free stack `[0]` while
the high-water mark is still 0: a stacked index that is not below the
high-water mark, so the invariant does not hold in this reachable state. -/
theorem C10_stack_holds_never_issued_slot :
    ((DataPool.new 1 (fun _ => false) (fun _ => 0) : DataPool Nat).exec [.freeData 0]).map
        (fun r => (r.1.map Prod.snd, r.2.freeStack, r.2.m_size, r.2.m_isFree,
          decide r.2.FreeStackInvariant)) =
      some ([.done], [0], 0, [true], false) := by
  decide

/-! ## Effect of each successful call -/

namespace DataPool

variable {T : Type}

theorem getFreeData_ok_cases {p q : DataPool T} {r : dataID_t}
    (h : p.getFreeData = .ok r q) :
    p.m_size < p.m_maxSize ∧
      ((p.m_freeIndexesNumber = 0 ∧ r = p.m_size ∧ p.m_size < p.m_isFree.length ∧
          p.m_size < p.m_dataArray.length ∧
          q = { p with m_isFree := p.m_isFree.set p.m_size false, m_size := p.m_size + 1 }) ∨
        (0 < p.m_freeIndexesNumber ∧
          p.m_freeIndexes[p.m_freeIndexesNumber - 1]? = some r ∧
          r < p.m_isFree.length ∧ r < p.m_dataArray.length ∧
          q = { p with
            m_freeIndexesNumber := p.m_freeIndexesNumber - 1
            m_isFree := p.m_isFree.set r false })) := by
  unfold getFreeData at h
  split at h
  · cases h
  · rename_i hsz
    refine ⟨by omega, ?_⟩
    split at h
    · rename_i hpos
      split at h
      · cases h
      · rename_i idx hidx
        split at h
        · rename_i hb
          injection h with hr hq
          subst hr
          exact Or.inr ⟨hpos, hidx, hb.1, hb.2, hq.symm⟩
        · cases h
    · rename_i hpos
      split at h
      · rename_i hb
        injection h with hr hq
        exact Or.inl ⟨by omega, hr.symm, hb.1, hb.2, hq.symm⟩
      · cases h

theorem freeData_ok_spec {p q : DataPool T} {id : dataID_t}
    (h : p.freeData id = .ok () q) :
    id ≤ p.m_size ∧ p.m_isFree[id]? = some false ∧ id < p.m_isFree.length ∧
      p.m_freeIndexesNumber < p.m_freeIndexes.length ∧
      q = { p with
        m_isFree := p.m_isFree.set id true
        m_freeIndexes := p.m_freeIndexes.set p.m_freeIndexesNumber id
        m_freeIndexesNumber := p.m_freeIndexesNumber + 1 } := by
  unfold freeData at h
  split at h
  · cases h
  · rename_i hle
    split at h
    · cases h
    · cases h
    · rename_i hflag
      split at h
      · rename_i hn
        injection h with _ hq
        have hlen : id < p.m_isFree.length := by
          rcases Nat.lt_or_ge id p.m_isFree.length with hl | hl
          · exact hl
          · rw [List.getElem?_eq_none hl] at hflag
            cases hflag
        exact ⟨Nat.le_of_not_gt hle, hflag, hlen, hn, hq.symm⟩
      · cases h

theorem store_ok_spec {p q : DataPool T} {id : dataID_t} {v : T}
    (h : p.store id v = .ok () q) :
    q = { p with m_dataArray := p.m_dataArray.set id v } := by
  unfold store at h
  split at h
  · rename_i r s hg
    obtain ⟨hs, hr⟩ := get_state hg
    subst hs hr
    injection h with _ hq
    exact hq.symm
  · cases h
  · cases h

/-- Every call that completes either leaves the state as it is (a thrown
error or a `get`), or is one of: a store, a growing acquisition, a reusing
acquisition, a release. -/
theorem step_cases {p q : DataPool T} {op : Op T} {r : Reply}
    (h : p.step op = some (r, q)) :
    (q = p ∧ ((∃ e, r = .error e) ∨ ∃ id, op = .get id)) ∨
      (∃ id v, op = .store id v ∧ r = .done ∧ p.store id v = .ok () q) ∨
      (∃ x, op = .getFreeData ∧ r = .slot x ∧ p.getFreeData = .ok x q) ∨
      (∃ id, op = .freeData id ∧ r = .done ∧ p.freeData id = .ok () q) := by
  cases op with
  | getFreeData =>
    simp only [step] at h
    cases hg : p.getFreeData with
    | ok a s =>
      rw [hg] at h
      simp only [Outcome.observe, Option.some.injEq, Prod.mk.injEq] at h
      obtain ⟨hr, hq⟩ := h
      subst hr hq
      exact Or.inr (Or.inr (Or.inl ⟨a, rfl, rfl, rfl⟩))
    | thrown e s =>
      rw [hg] at h
      simp only [Outcome.observe, Option.some.injEq, Prod.mk.injEq] at h
      obtain ⟨hr, hq⟩ := h
      subst hr hq
      exact Or.inl ⟨(getFreeData_thrown hg).1, Or.inl ⟨e, rfl⟩⟩
    | undefined => rw [hg] at h; cases h
  | freeData id =>
    simp only [step] at h
    cases hg : p.freeData id with
    | ok a s =>
      rw [hg] at h
      simp only [Outcome.observe, Option.some.injEq, Prod.mk.injEq] at h
      obtain ⟨hr, hq⟩ := h
      subst hr hq
      exact Or.inr (Or.inr (Or.inr ⟨id, rfl, rfl, hg⟩))
    | thrown e s =>
      rw [hg] at h
      simp only [Outcome.observe, Option.some.injEq, Prod.mk.injEq] at h
      obtain ⟨hr, hq⟩ := h
      subst hr hq
      exact Or.inl ⟨freeData_thrown hg, Or.inl ⟨e, rfl⟩⟩
    | undefined => rw [hg] at h; cases h
  | get id =>
    simp only [step] at h
    cases hg : p.get id with
    | ok a s =>
      rw [hg] at h
      simp only [Outcome.observe, Option.some.injEq, Prod.mk.injEq] at h
      obtain ⟨hr, hq⟩ := h
      subst hr hq
      exact Or.inl ⟨(get_state hg).1, Or.inr ⟨id, rfl⟩⟩
    | thrown e s =>
      rw [hg] at h
      simp only [Outcome.observe, Option.some.injEq, Prod.mk.injEq] at h
      obtain ⟨hr, hq⟩ := h
      subst hr hq
      exact Or.inl ⟨get_thrown hg, Or.inl ⟨e, rfl⟩⟩
    | undefined => rw [hg] at h; cases h
  | store id v =>
    simp only [step] at h
    cases hg : p.store id v with
    | ok a s =>
      rw [hg] at h
      simp only [Outcome.observe, Option.some.injEq, Prod.mk.injEq] at h
      obtain ⟨hr, hq⟩ := h
      subst hr hq
      exact Or.inr (Or.inl ⟨id, v, rfl, rfl, hg⟩)
    | thrown e s =>
      rw [hg] at h
      simp only [Outcome.observe, Option.some.injEq, Prod.mk.injEq] at h
      obtain ⟨hr, hq⟩ := h
      subst hr hq
      exact Or.inl ⟨store_thrown hg, Or.inl ⟨e, rfl⟩⟩
    | undefined => rw [hg] at h; cases h

/-- A completed call keeps `m_maxSize`, and either keeps `m_size` or is the
growing acquisition that returns slot `m_size` and adds one to it. -/
theorem step_size {p q : DataPool T} {op : Op T} {r : Reply}
    (h : p.step op = some (r, q)) :
    q.m_maxSize = p.m_maxSize ∧
      (q.m_size = p.m_size ∨
        (q.m_size = p.m_size + 1 ∧ op = .getFreeData ∧ r = .slot p.m_size)) := by
  rcases step_cases h with ⟨hq, _⟩ | ⟨id, v, _, _, hs⟩ | ⟨x, hop, hr, hg⟩ | ⟨id, _, _, hf⟩
  · subst hq
    exact ⟨rfl, Or.inl rfl⟩
  · rw [store_ok_spec hs]
    exact ⟨rfl, Or.inl rfl⟩
  · obtain ⟨_, hc⟩ := getFreeData_ok_cases hg
    rcases hc with ⟨_, hx, _, _, hq⟩ | ⟨_, _, _, _, hq⟩
    · subst hx
      rw [hq]
      exact ⟨rfl, Or.inr ⟨rfl, hop, hr⟩⟩
    · rw [hq]
      exact ⟨rfl, Or.inl rfl⟩
  · rw [(freeData_ok_spec hf).2.2.2.2]
    exact ⟨rfl, Or.inl rfl⟩

theorem exec_size {ops : List (Op T)} : ∀ {p s : DataPool T} {log : List (Op T × Reply)},
    p.exec ops = some (log, s) → s.m_maxSize = p.m_maxSize ∧ p.m_size ≤ s.m_size := by
  induction ops with
  | nil =>
    intro p s log h
    simp only [exec, Option.some.injEq, Prod.mk.injEq] at h
    rw [← h.2]
    exact ⟨rfl, Nat.le_refl _⟩
  | cons op ops ih =>
    intro p s log h
    obtain ⟨r, q, rest, hs, he, _⟩ := exec_cons h
    obtain ⟨h1, h2⟩ := step_size hs
    obtain ⟨h3, h4⟩ := ih he
    refine ⟨by rw [h3, h1], ?_⟩
    rcases h2 with h2 | ⟨h2, _⟩ <;> omega

end DataPool

/-! ## The high-water mark -/

/-- C11 (high-water-mark invariant): in every state `s` reached from a fresh
pool of capacity `N`, `m_size <= m_maxSize` and `m_maxSize` is still `N`; every
further call (`getFreeData`, `freeData`, `get`, a store) that completes keeps
`m_maxSize` and does not decrease `m_size`, and so does every further sequence
of calls. The queries `isFree`, `size`, `begin`, `end` only read the state. -/
theorem C11_high_water_mark {T : Type} [Inhabited T] (N : Nat) (junkIsFree : Nat → Bool)
    (junkFreeIndexes : Nat → dataID_t) (ops : List (Op T)) (log : List (Op T × Reply))
    (s : DataPool T)
    (h : (DataPool.new N junkIsFree junkFreeIndexes : DataPool T).exec ops = some (log, s)) :
    0 ≤ s.m_size ∧ s.m_size ≤ s.m_maxSize ∧ s.m_maxSize = N ∧
      (∀ op r q, s.step op = some (r, q) → q.m_maxSize = s.m_maxSize ∧ s.m_size ≤ q.m_size) ∧
      (∀ ops1 log1 q, s.exec ops1 = some (log1, q) →
        q.m_maxSize = s.m_maxSize ∧ s.m_size ≤ q.m_size) := by
  have hinv := DataPool.inv_exec h (DataPool.inv_new N junkIsFree junkFreeIndexes)
  refine ⟨Nat.zero_le _, hinv.size_le, (DataPool.exec_size h).1, ?_, ?_⟩
  · intro op r q hs
    obtain ⟨h1, h2⟩ := DataPool.step_size hs
    refine ⟨h1, ?_⟩
    rcases h2 with h2 | ⟨h2, _⟩ <;> omega
  · intro ops1 log1 q he
    exact DataPool.exec_size he

/-- Witness for C11: capacity 2, acquire, release 0, acquire. -/
theorem C11_high_water_mark_witness :
    (⟨[0, 0], 1, 2, [0, 0], 0, [false, true]⟩ : DataPool Nat).m_size ≤ 2 ∧
      (⟨[0, 0], 1, 2, [0, 0], 0, [false, true]⟩ : DataPool Nat).m_maxSize = 2 :=
  have h := C11_high_water_mark 2 (fun _ => true) (fun _ => 0)
    [.getFreeData, .freeData 0, .getFreeData]
    [(.getFreeData, .slot 0), (.freeData 0, .done), (.getFreeData, .slot 0)]
    (⟨[0, 0], 1, 2, [0, 0], 0, [false, true]⟩ : DataPool Nat) (by decide)
  ⟨h.2.2.1 ▸ h.2.1, h.2.2.1⟩

/-! ## Frame of release and reuse -/

theorem take_set_self {α : Type} (l : List α) (n : Nat) (a : α) :
    (l.set n a).take n = l.take n := by
  rw [List.set_take, List.set_eq_of_length_le]
  rw [List.length_take]
  exact Nat.min_le_left _ _

theorem take_succ_set_self {α : Type} (l : List α) (n : Nat) (a : α) (h : n < l.length) :
    (l.set n a).take (n + 1) = l.take n ++ [a] := by
  rw [List.take_succ, take_set_self, List.getElem?_set_self h]
  rfl

namespace DataPool

variable {T : Type}

theorem freeData_freeStack {p q : DataPool T} {id : dataID_t}
    (h : p.freeData id = .ok () q) : q.freeStack = p.freeStack ++ [id] := by
  obtain ⟨_, _, _, hn, hq⟩ := freeData_ok_spec h
  rw [hq]
  exact take_succ_set_self _ _ _ hn

theorem getFreeData_data {p q : DataPool T} {r : dataID_t}
    (h : p.getFreeData = .ok r q) :
    q.m_dataArray = p.m_dataArray ∧ r < p.m_dataArray.length := by
  obtain ⟨_, hc⟩ := getFreeData_ok_cases h
  rcases hc with ⟨_, hr, _, hd, hq⟩ | ⟨_, _, _, hd, hq⟩
  · rw [hq, hr]
    exact ⟨rfl, hd⟩
  · rw [hq]
    exact ⟨rfl, hd⟩

/-- After a successful `freeData(id)`, a successful `getFreeData` pops `id`. -/
theorem getFreeData_after_freeData {p q q2 : DataPool T} {id r : dataID_t}
    (h1 : p.freeData id = .ok () q) (h2 : q.getFreeData = .ok r q2) :
    r = id ∧ q2.m_size = p.m_size ∧ q2.m_freeIndexesNumber = p.m_freeIndexesNumber ∧
      q2.m_freeIndexes = q.m_freeIndexes := by
  obtain ⟨_, _, _, hn, hq⟩ := freeData_ok_spec h1
  obtain ⟨_, hc⟩ := getFreeData_ok_cases h2
  rcases hc with ⟨h0, _⟩ | ⟨_, htop, _, _, hq2⟩
  · rw [hq] at h0
    cases h0
  · have hr : r = id := by
      rw [hq] at htop
      simp only [Nat.add_sub_cancel, List.getElem?_set_self hn, Option.some.injEq] at htop
      exact htop.symm
    refine ⟨hr, ?_, ?_, ?_⟩
    · rw [hq2, hq]
    · rw [hq2, hq]
      exact Nat.add_sub_cancel _ _
    · rw [hq2]

end DataPool

/-- C12 (no reset on release or reuse): a successful `freeData(id)` leaves the
data array, the high-water mark and the capacity as they are, sets the flag of
`id`, keeps every other flag and pushes `id` on the free stack; every
successful `getFreeData` leaves the data array as it is; and a `getFreeData`
that succeeds right after the release returns slot `id`, whose element reads
the same value as before the release. -/
theorem C12_no_reset {T : Type} (p q : DataPool T) (id : dataID_t)
    (h : p.freeData id = .ok () q) :
    q.m_dataArray = p.m_dataArray ∧ q.m_size = p.m_size ∧ q.m_maxSize = p.m_maxSize ∧
      q.isFree id = some true ∧ (∀ j, j ≠ id → q.isFree j = p.isFree j) ∧
      q.freeStack = p.freeStack ++ [id] ∧
      (∀ (a b : DataPool T) x, a.getFreeData = .ok x b → b.m_dataArray = a.m_dataArray) ∧
      (∀ r q2, q.getFreeData = .ok r q2 →
        r = id ∧ q2.m_dataArray = p.m_dataArray ∧ q2.m_size = p.m_size ∧
          ∃ v, p.deref ⟨id⟩ = some v ∧ q2.deref ⟨r⟩ = some v) := by
  obtain ⟨_, _, hlen, hn, hq⟩ := DataPool.freeData_ok_spec h
  have hdata : q.m_dataArray = p.m_dataArray := by rw [hq]
  refine ⟨hdata, by rw [hq], by rw [hq], ?_, ?_, DataPool.freeData_freeStack h, ?_, ?_⟩
  · rw [hq]
    exact List.getElem?_set_self hlen
  · intro j hj
    rw [hq]
    exact List.getElem?_set_ne (Ne.symm hj)
  · intro a b x hab
    exact (DataPool.getFreeData_data hab).1
  · intro r q2 h2
    obtain ⟨hr, hsz, _, _⟩ := DataPool.getFreeData_after_freeData h h2
    obtain ⟨hd, hrlen⟩ := DataPool.getFreeData_data h2
    subst hr
    rw [hdata] at hd hrlen
    refine ⟨rfl, hd, hsz, p.m_dataArray[r], ?_, ?_⟩
    · simp [DataPool.deref, List.getElem?_eq_getElem hrlen]
    · simp [DataPool.deref, hd, List.getElem?_eq_getElem hrlen]

/-- Witness for C12: capacity 2, slot 0 holds 7; release it and reacquire. -/
theorem C12_no_reset_witness :
    (⟨[7, 0], 1, 2, [0, 0], 0, [false, true]⟩ : DataPool Nat).freeData 0 =
        .ok () ⟨[7, 0], 1, 2, [0, 0], 1, [true, true]⟩ ∧
      (⟨[7, 0], 1, 2, [0, 0], 1, [true, true]⟩ : DataPool Nat).getFreeData =
        .ok 0 ⟨[7, 0], 1, 2, [0, 0], 0, [false, true]⟩ ∧
      (⟨[7, 0], 1, 2, [0, 0], 0, [false, true]⟩ : DataPool Nat).m_dataArray = [7, 0] :=
  ⟨by decide, by decide,
    ((C12_no_reset (⟨[7, 0], 1, 2, [0, 0], 0, [false, true]⟩ : DataPool Nat)
      ⟨[7, 0], 1, 2, [0, 0], 1, [true, true]⟩ 0 (by decide)).2.2.2.2.2.2.2 0
      ⟨[7, 0], 1, 2, [0, 0], 0, [false, true]⟩ (by decide)).2.1⟩

/-! ## Exhaustion check -/

/-- C15 (exhaustion check ordering): in every state `getFreeData` throws
exactly when `m_size >= m_maxSize`, the error being "No more Data Available"
and the free stack playing no part; the state reached on a pool of capacity 1
by an acquisition and `freeData(0)` has the free stack `[0]` and
`m_size = m_maxSize`, and `getFreeData` throws there; and on a pool of
capacity 0 `getFreeData` throws in every reachable state. -/
theorem C15_exhaustion_check_first {T : Type} [Inhabited T] :
    (∀ p : DataPool T, p.m_maxSize ≤ p.m_size → p.getFreeData = .thrown .noMoreData p) ∧
      (∀ (p q : DataPool T) e, p.getFreeData = .thrown e q →
        p.m_maxSize ≤ p.m_size ∧ e = .noMoreData ∧ e.kind = .PoolExhausted) ∧
      (∃ s : DataPool T,
        (DataPool.new 1 (fun _ => true) (fun _ => 0) : DataPool T).exec
            [.getFreeData, .freeData 0] =
          some ([(.getFreeData, .slot 0), (.freeData 0, .done)], s) ∧
        s.freeStack = [0] ∧ s.m_size = s.m_maxSize ∧
        s.getFreeData = .thrown .noMoreData s) ∧
      (∀ jb ji ops log (s : DataPool T), (DataPool.new 0 jb ji : DataPool T).exec ops =
          some (log, s) → s.getFreeData = .thrown .noMoreData s) := by
  refine ⟨fun p h => DataPool.getFreeData_full h, ?_, ?_, ?_⟩
  · intro p q e h
    obtain ⟨_, he⟩ := DataPool.getFreeData_thrown h
    subst he
    refine ⟨?_, rfl, rfl⟩
    unfold DataPool.getFreeData at h
    split at h
    · assumption
    · split at h
      · split at h
        · cases h
        · split at h <;> cases h
      · split at h <;> cases h
  · exact ⟨_, rfl, rfl, rfl, rfl⟩
  · intro jb ji ops log s h
    apply DataPool.getFreeData_full
    rw [(DataPool.exec_size h).1]
    exact Nat.zero_le _

/-- Witness for C15 on the full pool of capacity 1 with slot 0 released. -/
theorem C15_exhaustion_check_first_witness :
    (⟨[0], 1, 1, [0], 1, [true]⟩ : DataPool Nat).getFreeData =
      .thrown .noMoreData ⟨[0], 1, 1, [0], 1, [true]⟩ :=
  (C15_exhaustion_check_first (T := Nat)).1 ⟨[0], 1, 1, [0], 1, [true]⟩ (by decide)

/-! ## Growth step -/

/-- C16 (growth step): in every state whose arrays have their allocated extent
(as in every reachable state), with an empty free stack and
`m_size < m_maxSize`, `getFreeData` returns slot `m_size`, clears its flag,
adds one to `m_size`, and leaves the free stack, every other flag, the data
array and the capacity as they are. -/
theorem C16_growth_step {T : Type} (s : DataPool T) (hs : DataPool.Inv s)
    (h0 : s.m_freeIndexesNumber = 0) (hlt : s.m_size < s.m_maxSize) :
    ∃ q, s.getFreeData = .ok s.m_size q ∧ q.m_size = s.m_size + 1 ∧
      q.isFree s.m_size = some false ∧ (∀ j, j ≠ s.m_size → q.isFree j = s.isFree j) ∧
      q.m_freeIndexes = s.m_freeIndexes ∧ q.m_freeIndexesNumber = 0 ∧
      q.freeStack = s.freeStack ∧ q.m_dataArray = s.m_dataArray ∧
      q.m_maxSize = s.m_maxSize := by
  refine ⟨_, DataPool.getFreeData_grow hs h0 hlt, rfl, ?_, ?_, rfl, h0, ?_, rfl, rfl⟩
  · exact List.getElem?_set_self (by rw [hs.flag_len]; exact hlt)
  · intro j hj
    exact List.getElem?_set_ne (Ne.symm hj)
  · simp [DataPool.freeStack]

/-- Witness for C16: the fresh pool of capacity 2 grows to slot 0. -/
theorem C16_growth_step_witness :
    ∃ q, (DataPool.new 2 (fun _ => true) (fun _ => 0) : DataPool Nat).getFreeData =
        .ok 0 q ∧ q.m_size = 1 :=
  match C16_growth_step (DataPool.new 2 (fun _ => true) (fun _ => 0) : DataPool Nat)
    (DataPool.inv_new 2 _ _) rfl (by decide) with
  | ⟨q, h1, h2, _⟩ => ⟨q, h1, h2⟩

/-! ## Errors leave the state alone -/

/-- C19 (errors are atomic): whenever `getFreeData`, `freeData(id)` or
`get(id)` throws, the state at the throw (all six members: data array,
high-water mark, capacity, free-index array and its count, flags) is the state
before the call. -/
theorem C19_errors_are_atomic {T : Type} (p q : DataPool T) (e : PoolError) :
    (p.getFreeData = .thrown e q → q = p) ∧
      (∀ id, p.freeData id = .thrown e q → q = p) ∧
      (∀ id, p.get id = .thrown e q → q = p) ∧
      (∀ id, p.subscript id = .thrown e q → q = p) :=
  ⟨fun h => (DataPool.getFreeData_thrown h).1, fun _ h => DataPool.freeData_thrown h,
    fun _ h => DataPool.get_thrown h, fun _ h => DataPool.get_thrown h⟩

/-- Witness for C19: `freeData(5)` on a pool with one slot issued. -/
theorem C19_errors_are_atomic_witness :
    (⟨[0, 0], 1, 2, [0, 0], 0, [false, true]⟩ : DataPool Nat).freeData 5 =
        .thrown (.notValid 5) ⟨[0, 0], 1, 2, [0, 0], 0, [false, true]⟩ ∧
      (⟨[0, 0], 1, 2, [0, 0], 0, [false, true]⟩ : DataPool Nat) =
        ⟨[0, 0], 1, 2, [0, 0], 0, [false, true]⟩ :=
  ⟨by decide, (C19_errors_are_atomic (⟨[0, 0], 1, 2, [0, 0], 0, [false, true]⟩ : DataPool Nat)
    ⟨[0, 0], 1, 2, [0, 0], 0, [false, true]⟩ (.notValid 5)).2.1 5 (by decide)⟩

/-! ## The flag of a slot follows its last acquire or release -/

theorem eventOn_error {T : Type} (id : dataID_t) (op : Op T) (e : PoolError) :
    eventOn id (op, Reply.error e) = none := by
  cases op <;> rfl

theorem eventOn_get {T : Type} (id j : dataID_t) (r : Reply) :
    eventOn id ((Op.get j : Op T), r) = none := by
  cases r <;> rfl

namespace DataPool

variable {T : Type}

theorem getFreeData_flags {p q : DataPool T} {r : dataID_t}
    (h : p.getFreeData = .ok r q) :
    r < p.m_isFree.length ∧ q.m_isFree = p.m_isFree.set r false := by
  obtain ⟨_, hc⟩ := getFreeData_ok_cases h
  rcases hc with ⟨_, hr, hl, _, hq⟩ | ⟨_, _, hl, _, hq⟩
  · rw [hq, hr]
    exact ⟨hl, rfl⟩
  · rw [hq]
    exact ⟨hl, rfl⟩

theorem step_flag {p q : DataPool T} {op : Op T} {r : Reply} (id : dataID_t)
    (h : p.step op = some (r, q)) :
    q.m_isFree[id]? =
      match eventOn id (op, r) with
      | some b => some b
      | none => p.m_isFree[id]? := by
  rcases step_cases h with ⟨hq, ⟨e, he⟩ | ⟨j, hj⟩⟩ | ⟨j, v, hop, hr, hs⟩ | ⟨x, hop, hr, hg⟩ |
    ⟨j, hop, hr, hf⟩
  · rw [hq, he, eventOn_error]
  · rw [hq, hj, eventOn_get]
  · rw [hop, hr, store_ok_spec hs]
    rfl
  · obtain ⟨hl, hq⟩ := getFreeData_flags hg
    rw [hop, hr, hq]
    by_cases hx : x = id
    · subst hx
      simp [eventOn, List.getElem?_set_self hl]
    · simp [eventOn, hx, List.getElem?_set_ne hx]
  · obtain ⟨_, _, hl, _, hq⟩ := freeData_ok_spec hf
    rw [hop, hr, hq]
    by_cases hx : j = id
    · subst hx
      simp [eventOn, List.getElem?_set_self hl]
    · simp [eventOn, hx, List.getElem?_set_ne hx]

theorem exec_flag (id : dataID_t) {ops : List (Op T)} :
    ∀ {p s : DataPool T} {log : List (Op T × Reply)}, p.exec ops = some (log, s) →
      s.m_isFree[id]? =
        match lastEvent id log with
        | some b => some b
        | none => p.m_isFree[id]? := by
  induction ops with
  | nil =>
    intro p s log h
    simp only [exec, Option.some.injEq, Prod.mk.injEq] at h
    rw [← h.1, ← h.2]
    rfl
  | cons op ops ih =>
    intro p s log h
    obtain ⟨r, q, rest, hs, he, hl⟩ := exec_cons h
    have h1 := ih he
    have h2 := step_flag id hs
    rw [hl]
    simp only [lastEvent]
    cases hle : lastEvent id rest with
    | some b =>
      rw [hle] at h1
      exact h1
    | none =>
      rw [hle] at h1
      rw [h1, h2]

theorem exec_event_of_growth (id : dataID_t) {ops : List (Op T)} :
    ∀ {p s : DataPool T} {log : List (Op T × Reply)}, p.exec ops = some (log, s) →
      p.m_size ≤ id → id < s.m_size → ∃ b, lastEvent id log = some b := by
  induction ops with
  | nil =>
    intro p s log h h1 h2
    simp only [exec, Option.some.injEq, Prod.mk.injEq] at h
    obtain ⟨_, hps⟩ := h
    subst hps
    exact absurd h2 (Nat.not_lt.mpr h1)
  | cons op ops ih =>
    intro p s log h h1 h2
    obtain ⟨r, q, rest, hs, he, hl⟩ := exec_cons h
    rw [hl]
    simp only [lastEvent]
    cases hle : lastEvent id rest with
    | some b => exact ⟨b, rfl⟩
    | none =>
      by_cases hq : q.m_size ≤ id
      · obtain ⟨b, hb⟩ := ih he hq h2
        rw [hle] at hb
        cases hb
      · obtain ⟨_, hsz⟩ := step_size hs
        rcases hsz with hsz | ⟨hsz, hop, hr⟩
        · omega
        · have hid : p.m_size = id := by omega
          rw [hop, hr, hid]
          exact ⟨false, by simp [eventOn]⟩

end DataPool

/-- C13 (isFree tracks the slot state machine): after any sequence of calls on
a fresh pool, for every `id < m_size` the slot has a most recent acquire or
release event in the log, and `isFree(id)` is `true` exactly when that event is
a successful `freeData(id)` and `false` exactly when it is a `getFreeData`
that returned slot `id`. The query `isFree` returns a value only: it has no
state to change. -/
theorem C13_isFree_tracks_last_event {T : Type} [Inhabited T] (N : Nat)
    (junkIsFree : Nat → Bool) (junkFreeIndexes : Nat → dataID_t) (ops : List (Op T))
    (log : List (Op T × Reply)) (s : DataPool T)
    (h : (DataPool.new N junkIsFree junkFreeIndexes : DataPool T).exec ops = some (log, s))
    (id : dataID_t) (hid : id < s.m_size) :
    (∃ b, lastEvent id log = some b ∧ s.isFree id = some b) ∧
      (s.isFree id = some true ↔ lastEvent id log = some true) ∧
      (s.isFree id = some false ↔ lastEvent id log = some false) := by
  obtain ⟨b, hb⟩ := DataPool.exec_event_of_growth id h (Nat.zero_le _) hid
  have hflag := DataPool.exec_flag id h
  rw [hb] at hflag
  have hfree : s.isFree id = some b := hflag
  rw [hb, hfree]
  exact ⟨⟨b, rfl, rfl⟩, Iff.rfl, Iff.rfl⟩

/-- Witness for C13: capacity 2, acquire (slot 0), acquire (slot 1), release
0: slot 0 reads free and slot 1 reads occupied. -/
theorem C13_isFree_tracks_last_event_witness :
    (⟨[0, 0], 2, 2, [0, 0], 1, [true, false]⟩ : DataPool Nat).isFree 0 = some true ∧
      (⟨[0, 0], 2, 2, [0, 0], 1, [true, false]⟩ : DataPool Nat).isFree 1 = some false :=
  have h := C13_isFree_tracks_last_event 2 (fun _ => false) (fun _ => 0)
    [.getFreeData, .getFreeData, .freeData 0]
    [(.getFreeData, .slot 0), (.getFreeData, .slot 1), (.freeData 0, .done)]
    (⟨[0, 0], 2, 2, [0, 0], 1, [true, false]⟩ : DataPool Nat) (by decide)
  ⟨(h 0 (by decide)).2.1.mpr (by decide), (h 1 (by decide)).2.2.mpr (by decide)⟩

/-! ## Last released, first reused -/

namespace DataPool

variable {T : Type}

theorem exec_append {xs : List (Op T)} : ∀ {p q s : DataPool T} {ys : List (Op T)}
    {l1 l2 : List (Op T × Reply)}, p.exec xs = some (l1, q) → q.exec ys = some (l2, s) →
    p.exec (xs ++ ys) = some (l1 ++ l2, s) := by
  induction xs with
  | nil =>
    intro p q s ys l1 l2 h1 h2
    simp only [exec, Option.some.injEq, Prod.mk.injEq] at h1
    obtain ⟨hl, hq⟩ := h1
    subst hl hq
    simpa using h2
  | cons op xs ih =>
    intro p q s ys l1 l2 h1 h2
    obtain ⟨r, p1, rest, hs, he, hl⟩ := exec_cons h1
    have h3 := ih he h2
    rw [List.cons_append, exec, hs]
    simp only [h3, hl, List.cons_append]

theorem step_freeData_done {p q : DataPool T} {id : dataID_t}
    (h : p.step (.freeData id) = some (.done, q)) : p.freeData id = .ok () q := by
  rcases step_cases h with ⟨_, ⟨e, he⟩ | ⟨j, hj⟩⟩ | ⟨j, v, hop, _⟩ | ⟨x, hop, _⟩ | ⟨j, hop, _, hf⟩
  · cases he
  · cases hj
  · cases hop
  · cases hop
  · cases hop
    exact hf

theorem getFreeData_pop {s : DataPool T} (hs : Inv s) (hlt : s.m_size < s.m_maxSize)
    (hpos : 0 < s.m_freeIndexesNumber) {a : dataID_t}
    (htop : s.m_freeIndexes[s.m_freeIndexesNumber - 1]? = some a) (ha : a < s.m_maxSize) :
    s.getFreeData = .ok a { s with
      m_freeIndexesNumber := s.m_freeIndexesNumber - 1
      m_isFree := s.m_isFree.set a false } := by
  unfold getFreeData
  rw [if_neg (by omega), if_pos hpos]
  simp only [htop]
  rw [if_pos ⟨by rw [hs.flag_len]; exact ha, by rw [hs.data_len]; exact ha⟩]

theorem exec_release_then_acquire (ids : List dataID_t) :
    ∀ (p q : DataPool T), Inv p → p.m_size < p.m_maxSize →
      p.exec (ids.map Op.freeData) =
        some (ids.map (fun a => (Op.freeData a, Reply.done)), q) →
      ∃ s, q.exec (List.replicate ids.length Op.getFreeData) =
          some (ids.reverse.map (fun a => (Op.getFreeData, Reply.slot a)), s) ∧
        s.m_size = p.m_size ∧ s.m_freeIndexesNumber = p.m_freeIndexesNumber ∧
        s.freeStack = p.freeStack := by
  induction ids with
  | nil =>
    intro p q _ _ h
    simp only [List.map_nil, exec, Option.some.injEq, Prod.mk.injEq, true_and] at h
    subst h
    exact ⟨p, rfl, rfl, rfl, rfl⟩
  | cons a rest ih =>
    intro p q hp hlt h
    rw [List.map_cons] at h
    obtain ⟨r, p1, rest1, hs, he, hl⟩ := exec_cons h
    rw [List.map_cons] at hl
    injection hl with hhead htail
    injection hhead with _ hr
    subst hr htail
    have hf := step_freeData_done hs
    obtain ⟨_, _, halen, hn, hp1⟩ := freeData_ok_spec hf
    have hp1inv := inv_freeData hf hp
    have hp1size : p1.m_size = p.m_size := by rw [hp1]
    have hp1max : p1.m_maxSize = p.m_maxSize := by rw [hp1]
    have hp1num : p1.m_freeIndexesNumber = p.m_freeIndexesNumber + 1 := by rw [hp1]
    obtain ⟨s1, hs1, hs1size, hs1num, hs1stack⟩ :=
      ih p1 q hp1inv (by rw [hp1size, hp1max]; exact hlt) he
    have hqinv := inv_exec he hp1inv
    have hs1inv := inv_exec hs1 hqinv
    have hs1max : s1.m_maxSize = p.m_maxSize := by
      rw [(exec_size hs1).1, (exec_size he).1, hp1max]
    have hstack : s1.freeStack = p.freeStack ++ [a] := by
      rw [hs1stack]
      exact freeData_freeStack hf
    have hplen : p.freeStack.length = p.m_freeIndexesNumber := by
      simp only [freeStack, List.length_take]
      omega
    have htop : s1.m_freeIndexes[s1.m_freeIndexesNumber - 1]? = some a := by
      have h1 : s1.freeStack[p.m_freeIndexesNumber]? = some a := by
        rw [hstack, ← hplen]
        simp
      rw [hs1num, hp1num, Nat.add_sub_cancel]
      rw [← h1]
      simp only [freeStack, hs1num, hp1num]
      exact (List.getElem?_take_of_succ).symm
    have hpop := getFreeData_pop hs1inv (by rw [hs1size, hp1size, hs1max]; exact hlt)
      (by rw [hs1num, hp1num]; exact Nat.succ_pos _) htop
      (by rw [hs1max, ← hp.flag_len]; exact halen)
    refine ⟨{ s1 with
      m_freeIndexesNumber := s1.m_freeIndexesNumber - 1
      m_isFree := s1.m_isFree.set a false }, ?_, ?_, ?_, ?_⟩
    · rw [List.length_cons, List.replicate_succ', List.reverse_cons, List.map_append]
      refine exec_append hs1 ?_
      simp only [exec, step, hpop, Outcome.observe, List.map_cons, List.map_nil]
    · show s1.m_size = p.m_size
      rw [hs1size, hp1size]
    · show s1.m_freeIndexesNumber - 1 = p.m_freeIndexesNumber
      rw [hs1num, hp1num, Nat.add_sub_cancel]
    · show s1.m_freeIndexes.take (s1.m_freeIndexesNumber - 1) = p.freeStack
      have h2 : s1.m_freeIndexes.take p.m_freeIndexesNumber =
          s1.freeStack.take p.m_freeIndexesNumber := by
        simp only [freeStack, hs1num, hp1num, List.take_take]
        rw [Nat.min_eq_left (Nat.le_succ _)]
      rw [hs1num, hp1num, Nat.add_sub_cancel, h2, hstack, ← hplen, List.take_left']
      rfl

end DataPool

/-- C18 (LIFO reuse below capacity): in every reachable state with
`m_size < m_maxSize`, if the calls `freeData(a1)`, ..., `freeData(an)` all
succeed in that order, then the next `n` calls of `getFreeData` all succeed and
return the slots `an, ..., a1`, after which the high-water mark, the count of
free indices and the free stack are what they were before the releases. -/
theorem C18_lifo_reuse {T : Type} [Inhabited T] (p q : DataPool T)
    (hr : DataPool.Reachable p) (hlt : p.m_size < p.m_maxSize) (ids : List dataID_t)
    (hrel : p.exec (ids.map Op.freeData) =
      some (ids.map (fun a => (Op.freeData a, Reply.done)), q)) :
    ∃ s, q.exec (List.replicate ids.length Op.getFreeData) =
        some (ids.reverse.map (fun a => (Op.getFreeData, Reply.slot a)), s) ∧
      s.m_size = p.m_size ∧ s.m_freeIndexesNumber = p.m_freeIndexesNumber ∧
      s.freeStack = p.freeStack :=
  DataPool.exec_release_then_acquire ids p q (DataPool.inv_of_reachable hr) hlt hrel

/-- Witness for C18: capacity 3, slots 0 and 1 acquired; release 0 then 1,
and the next two acquisitions return 1 then 0. -/
theorem C18_lifo_reuse_witness :
    ∃ s, (⟨[0, 0, 0], 2, 3, [0, 1, 0], 2, [true, true, true]⟩ : DataPool Nat).exec
        [.getFreeData, .getFreeData] =
        some ([(.getFreeData, .slot 1), (.getFreeData, .slot 0)], s) ∧
      s.m_size = 2 ∧ s.m_freeIndexesNumber = 0 ∧ s.freeStack = [] :=
  have hr : DataPool.Reachable
      (⟨[0, 0, 0], 2, 3, [0, 0, 0], 0, [false, false, true]⟩ : DataPool Nat) :=
    ⟨3, fun _ => true, fun _ => 0, [.getFreeData, .getFreeData],
      [(.getFreeData, .slot 0), (.getFreeData, .slot 1)], by decide⟩
  C18_lifo_reuse (⟨[0, 0, 0], 2, 3, [0, 0, 0], 0, [false, false, true]⟩ : DataPool Nat)
    ⟨[0, 0, 0], 2, 3, [0, 1, 0], 2, [true, true, true]⟩ hr (by decide) [0, 1] (by decide)

/-! ## Live handles -/

/-- C17 (live handles are unique), evaluated on the code: on a fresh pool of
capacity 2 whose uninitialised flag array holds `false`, `freeData(0)`
succeeds although slot 0 was never issued (0 passes the test
`_id > m_size`); the next `getFreeData` pops slot 0 without raising `m_size`,
and the one after it grows the pool and returns slot 0 again: two live handles
for the same slot, with no release in between. -/
theorem C17_slot_issued_twice :
    ((DataPool.new 2 (fun _ => false) (fun _ => 0) : DataPool Nat).exec
        [.freeData 0, .getFreeData, .getFreeData]).map
        (fun r => (r.1.map Prod.snd, r.2.m_size, r.2.freeStack)) =
      some ([.done, .slot 0, .slot 0], 1, []) := by
  decide

/-! ## Array bounds -/

/-- C20 (indexing stays in bounds), evaluated on the code: on a pool of
capacity 1, whatever its uninitialised contents, after one `getFreeData`
(`m_size = 1`) the call `freeData(1)` passes the test `_id > m_size` and reads
`m_isFree[1]`, an index outside `[0, 1)`: the call has undefined behaviour. -/
theorem C20_release_reads_out_of_bounds :
    ((DataPool.new 1 (fun _ => true) (fun _ => 0) : DataPool Nat).exec [.getFreeData]).map
        (fun r => (r.1.map Prod.snd, r.2.m_size, r.2.m_isFree.length, r.2.freeData 1)) =
      some ([.slot 0], 1, 1, .undefined) ∧
    ((DataPool.new 1 (fun _ => false) (fun _ => 0) : DataPool Nat).exec [.getFreeData]).map
        (fun r => (r.1.map Prod.snd, r.2.m_size, r.2.m_isFree.length, r.2.freeData 1)) =
      some ([.slot 0], 1, 1, .undefined) := by
  decide

/-! ## The manager -/

/-- C14 (wrapper null-callback check): the constructor stores the callback it
is given; `update(delta)` throws "UpdateCallback is a nullptr" exactly when
the stored callback is null, and then invokes nothing; otherwise it makes
exactly one invocation, of the stored callback with `delta` and the manager's
own pool, and its result is the result of that invocation, nothing else being
done to the pool. -/
theorem C14_update_null_check {F T : Type} [Inhabited T] (m : DataManager F T) (delta : F) :
    (∀ N cb jb ji, (DataManager.new N cb jb ji : DataManager F T).m_updateCallback = cb) ∧
      ((m.update delta).result = .nullCallback ↔ m.m_updateCallback = none) ∧
      (m.m_updateCallback = none → (m.update delta).calls = []) ∧
      (∀ f, m.m_updateCallback = some f →
        (m.update delta).calls = [(delta, m.getDataPool)] ∧
          (m.update delta).result = .ran (f delta m.getDataPool)) := by
  refine ⟨fun _ _ _ _ => rfl, ?_, ?_, ?_⟩
  · cases hcb : m.m_updateCallback with
    | none => simp [DataManager.update, hcb]
    | some f => simp [DataManager.update, hcb]
  · intro hcb
    simp [DataManager.update, hcb]
  · intro f hcb
    simp [DataManager.update, DataManager.getDataPool, hcb]

/-- Witness for C14: a manager whose callback releases the slot named by the
delta, and a manager built with a null callback. -/
theorem C14_update_null_check_witness :
    ((⟨⟨[0], 1, 1, [0], 0, [false]⟩, some (fun d p => p.freeData d)⟩ :
        DataManager Nat Nat).update 0).calls = [(0, ⟨[0], 1, 1, [0], 0, [false]⟩)] ∧
      ((DataManager.new 1 none (fun _ => true) (fun _ => 0) :
        DataManager Nat Nat).update 0).calls = [] :=
  ⟨((C14_update_null_check (⟨⟨[0], 1, 1, [0], 0, [false]⟩, some (fun d p => p.freeData d)⟩ :
      DataManager Nat Nat) 0).2.2.2 _ rfl).1,
    (C14_update_null_check (DataManager.new 1 none (fun _ => true) (fun _ => 0) :
      DataManager Nat Nat) 0).2.2.1 rfl⟩

end DPool
